import Mathlib

/-! Verification of the ai-blip-tagger pipeline: a shallow embedding of the orchestrator (`src/tagger.py`), the video frame
sampler (`src/processors/video_processor.py`) and the captioner error path
(`src/models/captioner.py`), with theorems checking the specification's
claims about discovery, resume, persistence modes, frame sampling and
error containment.

Modelling conventions:
* A `pathlib.Path` value is modelled by `PyPath`, carrying the attributes
  the code reads: `name` (basename), `suffix` (extension with dot) and
  `str` (the full path string, used for ordering in `sorted`).
* The output CSV file is modelled as `Option (List Row)`: `none` is an
  absent file, `some rows` a file whose csv rows are `rows`.
* Exceptions from the surrounding libraries (cv2, PIL, torch) are modelled
  by `Except String` values supplied as oracles; a Python `set` of strings
  is modelled by a `List String` used only through membership.
-/

namespace BlipTagger

/-- One CSV record as the `csv` module reads or writes it. -/
abbrev Row := List String

/-- Model of a `pathlib.Path`: the attributes the code consults. -/
structure PyPath where
  name : String
  suffix : String
  str : String
deriving DecidableEq, Repr

/-- The set `AITagger.SUPPORTED_IMAGES` (tagger.py line 18). -/
def SUPPORTED_IMAGES : List String :=
  [".jpg", ".jpeg", ".png", ".bmp", ".tiff", ".webp"]

/-- The set `AITagger.SUPPORTED_VIDEOS` (tagger.py line 19). -/
def SUPPORTED_VIDEOS : List String :=
  [".mp4", ".avi", ".mov", ".mkv", ".gif", ".webm"]

/-- Python's `str.lower()` as the code applies it to extensions
(ASCII), written as a character map so that it evaluates by kernel
reduction. -/
def pyLower (s : String) : String := String.mk (s.data.map Char.toLower)

/-- Embeds `AITagger._is_supported` (tagger.py lines 145-149): lowercase the
suffix and test membership in either extension set. -/
def isSupported (p : PyPath) : Bool :=
  let suffix := pyLower p.suffix
  SUPPORTED_IMAGES.contains suffix || SUPPORTED_VIDEOS.contains suffix

/-- An entry yielded by `path.rglob('*')`: a path plus whether
`is_file()` holds for it (rglob also yields directories). -/
structure DirEntry where
  path : PyPath
  isFile : Bool
deriving DecidableEq, Repr

/-- The input argument of `AITagger._get_files`: either a single file or
a directory whose recursive listing is `entries`. -/
inductive InputPath where
  | file (p : PyPath)
  | dir (entries : List DirEntry)
deriving DecidableEq, Repr

/-- The order `sorted(files)` uses, modelled as ordering by the full
path string. -/
def pathLe (a b : PyPath) : Prop := a.str ≤ b.str

instance : DecidableRel pathLe := fun a b => String.decidableLE a.str b.str

instance : IsTotal PyPath pathLe := ⟨fun a b => le_total a.str b.str⟩

instance : IsTrans PyPath pathLe := ⟨fun _ _ _ h h' => le_trans h h'⟩

/-- Embeds `AITagger._get_files` (tagger.py lines 128-143): a single file is
returned alone when supported, otherwise nothing; a directory yields the
sorted list of its recursively listed plain files with supported
extensions. -/
def getFiles (input : InputPath) : List PyPath :=
  match input with
  | .file p => if isSupported p then [p] else []
  | .dir entries =>
      let files := (entries.filter (fun e => e.isFile && isSupported e.path)).map (·.path)
      List.insertionSort pathLe files

/-- First-column extraction in `AITagger._get_existing_files`
(tagger.py lines 216-218): keep nonempty rows, take `row[0]`. -/
def firstColumns (rows : List Row) : List String :=
  (rows.filter (fun r => !r.isEmpty)).map (fun r => r.headD "")

/-- Embeds `AITagger._get_existing_files` (tagger.py lines 204-227).
`file` is the ledger content (`none` = absent); `errIdx = some k` models
an exception interrupting the csv reader after it has yielded `k` rows,
upon which the `except` clause returns the entries accumulated so far.
The first yielded row is consumed by `next(reader, None)`. -/
def getExistingFiles (file : Option (List Row)) (errIdx : Option Nat) : List String :=
  match file with
  | none => []
  | some rows =>
      let yielded :=
        match errIdx with
        | none => rows
        | some k => rows.take k
      firstColumns (yielded.drop 1)

/-- The resume filter in `AITagger.process` (tagger.py lines 66-68):
only when skip-existing is on and the resume set is nonempty are the
discovered files filtered by basename. -/
def filterExisting (skipExisting : Bool) (existing : List String)
    (files : List PyPath) : List PyPath :=
  if skipExisting && !existing.isEmpty then
    files.filter (fun f => !existing.contains f.name)
  else
    files

/-- The frame-index selection in `VideoProcessor._extract_frames`
(video_processor.py lines 49-53): all indices when the frame count is at
most `maxFrames`, else `maxFrames` indices spaced `total // maxFrames`
apart starting at 0. -/
def frameIndices (total maxFrames : Nat) : List Nat :=
  if total ≤ maxFrames then
    List.range total
  else
    let step := total / maxFrames
    (List.range maxFrames).map (fun i => i * step)

/-- Embeds `VideoProcessor._extract_frames` (video_processor.py lines 35-66).
`opened` models `video.isOpened()`; `readFrame i` models
`video.read()` at index `i` (`none` = read failed, `some a` = the decoded
frame). An unopened video raises; a zero frame count returns `[]` before
any sampling. -/
def extractFrames (opened : Bool) (total maxFrames : Nat)
    (readFrame : Nat → Option α) : Except String (List α) :=
  if !opened then
    .error "Could not open video file"
  else if total = 0 then
    .ok []
  else
    .ok ((frameIndices total maxFrames).filterMap readFrame)

/-- Embeds `VideoProcessor.process` (video_processor.py lines 16-33): an empty
frame list yields the literal no-frames string; otherwise captions are
joined with " | "; an extraction exception is logged and re-raised. -/
def videoProcess (frames : Except String (List α))
    (captionFn : α → String) : Except String String :=
  match frames with
  | .error e => .error e
  | .ok fs =>
      if fs.isEmpty then
        .ok "No frames extracted from video"
      else
        .ok (String.intercalate " | " (fs.map captionFn))

/-- Embeds `ImageCaptioner.caption` (captioner.py lines 28-41). `gen` models
the outcome of the preprocessing/generate/decode pipeline: on success
the decoded text is stripped and returned, on any exception the fixed
sentinel string is returned instead of propagating. -/
def imageCaption (gen : Except String String) : String :=
  match gen with
  | .ok text => text.trim
  | .error _ => "Caption generation failed"

/-- The format choice of the `--format` flag (`basic` or `detailed`). -/
inductive FormatType where
  | basic
  | detailed
deriving DecidableEq, Repr

/-- The header row written by `_write_csv` / `_ensure_csv_headers`
(tagger.py lines 178-181 and 190-193). -/
def headerRow (fmt : FormatType) : Row :=
  match fmt with
  | .detailed => ["filename", "caption", "size_kb", "dimensions", "file_type", "date_processed"]
  | .basic => ["filename", "caption"]

/-- The metadata `AITagger._get_file_info` returns (tagger.py lines
229-256), with each field already rendered as the string the csv writer
emits. -/
structure FileInfo where
  size_kb : String
  dimensions : String
  extension : String
  date_processed : String
deriving DecidableEq, Repr

/-- Per-file environment for one loop iteration of `AITagger.process`:
the outcome of `_process_single_file` (`.error` = an exception reached
the `except` clause), the `_get_file_info` answer used on success, and
the `datetime.now()` string used in the error row. -/
structure FileOutcome where
  result : Except String String
  info : FileInfo
  now : String
deriving Repr

/-- The row recorded for one file by the loop body of `AITagger.process`
(tagger.py lines 82-116): on success the caption row (with metadata when
detailed), on exception the "ERROR" row with placeholder metadata. -/
def resultRow (fmt : FormatType) (f : PyPath) (env : FileOutcome) : Row :=
  match env.result with
  | .ok caption =>
      match fmt with
      | .detailed =>
          [f.name, caption, env.info.size_kb, env.info.dimensions,
           env.info.extension, env.info.date_processed]
      | .basic => [f.name, caption]
  | .error _ =>
      match fmt with
      | .detailed =>
          [f.name, "ERROR", "0", "unknown", pyLower f.suffix, env.now]
      | .basic => [f.name, "ERROR"]

/-- Embeds `AITagger._ensure_csv_headers` (tagger.py lines 184-195): create the
file with the header row only when it does not exist. -/
def ensureCsvHeaders (fmt : FormatType) (file : Option (List Row)) : Option (List Row) :=
  match file with
  | none => some [headerRow fmt]
  | some rows => some rows

/-- Embeds `AITagger._save_single_result` (tagger.py lines 197-202): append one
row (mode 'a' creates an absent file). -/
def saveSingleResult (row : Row) (file : Option (List Row)) : Option (List Row) :=
  some (file.getD [] ++ [row])

/-- Embeds `AITagger._append_csv` (tagger.py lines 163-171): no-op on an empty
result list, otherwise append all rows (mode 'a' creates an absent
file). -/
def appendCsv (results : List Row) (file : Option (List Row)) : Option (List Row) :=
  if results.isEmpty then file
  else some (file.getD [] ++ results)

/-- Embeds `AITagger._write_csv` (tagger.py lines 173-182): overwrite with the
header row followed by all result rows. -/
def writeCsv (fmt : FormatType) (results : List Row) : Option (List Row) :=
  some (headerRow fmt :: results)

/-- The mutable state of one `AITagger.process` run: the ledger file and
the in-memory `results` buffer. -/
structure RunState where
  file : Option (List Row)
  results : List Row
deriving DecidableEq, Repr

/-- One iteration of the loop in `AITagger.process` (tagger.py lines
81-116): compute the file's row, then either append it to the ledger at
once (continuous save) or queue it in the buffer. -/
def processFile (continuousSave : Bool) (fmt : FormatType)
    (env : PyPath → FileOutcome) (st : RunState) (f : PyPath) : RunState :=
  let row := resultRow fmt f (env f)
  if continuousSave then
    { st with file := saveSingleResult row st.file }
  else
    { st with results := st.results ++ [row] }

/-- Embeds `AITagger.process` (tagger.py lines 50-126), returning the final
ledger file content. `file0` is the ledger before the run, `errIdx`
the resume-read interruption point of `_get_existing_files`. -/
def process (skipExisting continuousSave : Bool) (fmt : FormatType)
    (env : PyPath → FileOutcome) (errIdx : Option Nat)
    (file0 : Option (List Row)) (input : InputPath) : Option (List Row) :=
  let file1 := if continuousSave then ensureCsvHeaders fmt file0 else file0
  let existing := if skipExisting then getExistingFiles file1 errIdx else []
  let filesFound := getFiles input
  if filesFound.isEmpty then file1
  else
    let files := filterExisting skipExisting existing filesFound
    if files.isEmpty then file1
    else
      let finalState := files.foldl (processFile continuousSave fmt env)
        { file := file1, results := [] }
      if !continuousSave then
        if skipExisting && !existing.isEmpty then
          appendCsv finalState.results finalState.file
        else
          writeCsv fmt finalState.results
      else
        finalState.file

/-- A concrete per-file environment in which processing `A.jpg` raises
and every other file captions normally; used to exercise the
error-containment theorem. -/
def envWitness : PyPath → FileOutcome := fun g =>
  if g.name = "A.jpg" then
    ⟨Except.error "broken image", ⟨"10", "2x2", ".jpg", "t1"⟩, "now"⟩
  else
    ⟨Except.ok "a dog", ⟨"10", "2x2", ".jpg", "t1"⟩, "now"⟩

/-! Theorems checking the claims. -/

/-- C7: for every video that opens but has a frame count of zero,
`VideoProcessor.process` returns exactly the string
"No frames extracted from video" rather than an error. -/
theorem zero_frame_video_result {α : Type} (maxFrames : Nat)
    (readFrame : Nat → Option α) (captionFn : α → String) :
    videoProcess (extractFrames true 0 maxFrames readFrame) captionFn
      = Except.ok "No frames extracted from video" := rfl

/-- C8: for every internal failure of the caption pipeline,
`ImageCaptioner.caption` does not propagate the exception but returns
the fixed sentinel string, independent of the failure. -/
theorem caption_failure_returns_sentinel (e : String) :
    imageCaption (Except.error e) = "Caption generation failed"
      ∧ ∀ e' : String, imageCaption (Except.error e) = imageCaption (Except.error e') :=
  ⟨rfl, fun _ => rfl⟩

/-- C2: for every positive frame count and positive `max_frames` bound,
the sampler takes all indices `0..total-1` when `total ≤ N`, and
otherwise exactly `N` pairwise distinct indices, starting at 0, with a
constant positive spacing of `total / N`, all below `total`. -/
theorem video_frame_sampling (total N : Nat) (ht : 0 < total) (hN : 0 < N) :
    (total ≤ N → frameIndices total N = List.range total)
    ∧ (N < total →
        (frameIndices total N).length = N
        ∧ (frameIndices total N).head? = some 0
        ∧ 0 < total / N
        ∧ List.Chain' (fun a b => b = a + total / N) (frameIndices total N)
        ∧ (∀ i ∈ frameIndices total N, i < total)
        ∧ (frameIndices total N).Nodup) := by
  constructor
  · intro h
    simp [frameIndices, h]
  · intro h
    have hnle : ¬ total ≤ N := Nat.not_le.mpr h
    have heq : frameIndices total N = (List.range N).map (fun i => i * (total / N)) := by
      simp [frameIndices, hnle]
    have hstep : 0 < total / N := by
      rw [Nat.lt_iff_add_one_le] at *
      exact (Nat.one_le_div_iff hN).mpr (Nat.le_of_succ_le h)
    refine ⟨?_, ?_, hstep, ?_, ?_, ?_⟩
    · simp [heq]
    · rw [heq]
      cases hc : List.range N with
      | nil => simp [List.range_eq_nil] at hc; omega
      | cons a l =>
          have : a = 0 := by
            have := List.range_succ_eq_map (n := N - 1)
            rw [show N - 1 + 1 = N by omega] at this
            rw [this] at hc
            exact (List.cons.injEq _ _ _ _ ▸ hc).1.symm
          simp [hc, this]
    · rw [heq, List.chain'_iff_get]
      intro i hi
      simp only [List.length_map, List.length_range] at hi
      simp only [List.get_eq_getElem, List.getElem_map, List.getElem_range]
      ring
    · intro i hi
      rw [heq] at hi
      obtain ⟨j, hj, rfl⟩ := List.mem_map.mp hi
      have hjN : j < N := List.mem_range.mp hj
      calc j * (total / N) < N * (total / N) :=
            (Nat.mul_lt_mul_right hstep).mpr hjN
        _ = total / N * N := Nat.mul_comm _ _
        _ ≤ total := Nat.div_mul_le_self total N
    · rw [heq]
      refine List.Nodup.map ?_ (List.nodup_range N)
      intro a b hab
      exact Nat.eq_of_mul_eq_mul_right hstep hab

/-- Witness for C2 at the spec's own examples: 3 frames with bound 5
samples all three; 100 frames with bound 5 samples exactly 5 indices
spaced 20 apart, all below 100. -/
theorem video_frame_sampling_witness :
    frameIndices 3 5 = List.range 3
    ∧ (frameIndices 100 5).length = 5
    ∧ List.Chain' (fun a b => b = a + 100 / 5) (frameIndices 100 5) :=
  ⟨(video_frame_sampling 3 5 (by decide) (by decide)).1 (by decide),
   ((video_frame_sampling 100 5 (by decide) (by decide)).2 (by decide)).1,
   ((video_frame_sampling 100 5 (by decide) (by decide)).2 (by decide)).2.2.2.1⟩

/-- C1: with skip-existing enabled, the resume set is the first column
of the existing ledger with the header row skipped, and the files kept
for processing are exactly the discovered files whose name is not in
that set; in particular a ledger listing A and B leaves only C of
A, B, C. -/
theorem resume_skips_ledger_entries (rows : List Row) (files : List PyPath) :
    (filterExisting true (getExistingFiles (some rows) none) files
        = files.filter (fun f => !(firstColumns (rows.drop 1)).contains f.name))
    ∧ filterExisting true
        (getExistingFiles (some [["filename", "caption"], ["A.jpg", "ca"], ["B.jpg", "cb"]]) none)
        [⟨"A.jpg", ".jpg", "d/A.jpg"⟩, ⟨"B.jpg", ".jpg", "d/B.jpg"⟩, ⟨"C.jpg", ".jpg", "d/C.jpg"⟩]
      = [⟨"C.jpg", ".jpg", "d/C.jpg"⟩] := by
  constructor
  · show filterExisting true (firstColumns (rows.drop 1)) files = _
    unfold filterExisting
    cases hemp : (firstColumns (rows.drop 1)).isEmpty with
    | true =>
        have hnil : firstColumns (rows.drop 1) = [] := List.isEmpty_iff.mp hemp
        rw [hnil]
        rw [if_neg (by simp)]
        rw [List.filter_eq_self.mpr]
        intro a _
        rfl
    | false =>
        rw [if_pos (show (true && !false) = true from rfl)]
  · rfl

/-- C9: the resume filter keys on basenames alone: a discovered file is
dropped iff its `name` is in the resume set, so two files with the same
basename in different directories are dropped together as soon as either
name appears in the ledger. -/
theorem resume_filter_uses_basenames (existing : List String) (files : List PyPath)
    (p q : PyPath) (hp : p ∈ files) (hq : q ∈ files) (hname : p.name = q.name) :
    (∀ f ∈ files, (f ∉ filterExisting true existing files
        ↔ existing.contains f.name = true))
    ∧ (existing.contains p.name = true ∨ existing.contains q.name = true →
        p ∉ filterExisting true existing files
          ∧ q ∉ filterExisting true existing files) := by
  have main : ∀ f ∈ files, (f ∉ filterExisting true existing files
      ↔ existing.contains f.name = true) := by
    intro f hf
    unfold filterExisting
    cases hemp : existing.isEmpty with
    | true =>
        have hnil : existing = [] := List.isEmpty_iff.mp hemp
        subst hnil
        rw [if_neg (by simp)]
        simp [hf, List.contains]
    | false =>
        rw [if_pos (show (true && !false) = true from rfl)]
        constructor
        · intro hnot
          cases hcc : existing.contains f.name with
          | true => rfl
          | false =>
              exact absurd (List.mem_filter.mpr ⟨hf, by rw [hcc]; rfl⟩) hnot
        · intro hcont hmem
          have h2 := (List.mem_filter.mp hmem).2
          rw [hcont] at h2
          exact absurd h2 (by decide)
  refine ⟨main, fun hor => ?_⟩
  have hpq : existing.contains p.name = true := by
    rcases hor with h | h
    · exact h
    · rw [hname]; exact h
  exact ⟨(main p hp).mpr hpq, (main q hq).mpr (by rw [← hname]; exact hpq)⟩

/-- Witness for C9: with "A.jpg" in the ledger, both `d1/A.jpg` and
`d2/A.jpg` are skipped. -/
theorem resume_filter_uses_basenames_witness :
    (⟨"A.jpg", ".jpg", "d1/A.jpg"⟩ : PyPath)
        ∉ filterExisting true ["A.jpg"]
          [⟨"A.jpg", ".jpg", "d1/A.jpg"⟩, ⟨"A.jpg", ".jpg", "d2/A.jpg"⟩,
           ⟨"C.jpg", ".jpg", "d1/C.jpg"⟩]
    ∧ (⟨"A.jpg", ".jpg", "d2/A.jpg"⟩ : PyPath)
        ∉ filterExisting true ["A.jpg"]
          [⟨"A.jpg", ".jpg", "d1/A.jpg"⟩, ⟨"A.jpg", ".jpg", "d2/A.jpg"⟩,
           ⟨"C.jpg", ".jpg", "d1/C.jpg"⟩] :=
  (resume_filter_uses_basenames ["A.jpg"]
      [⟨"A.jpg", ".jpg", "d1/A.jpg"⟩, ⟨"A.jpg", ".jpg", "d2/A.jpg"⟩,
       ⟨"C.jpg", ".jpg", "d1/C.jpg"⟩]
      ⟨"A.jpg", ".jpg", "d1/A.jpg"⟩ ⟨"A.jpg", ".jpg", "d2/A.jpg"⟩
      (by decide) (by decide) rfl).2 (Or.inl (by decide))

/-- C10: building the resume set is total: an absent ledger yields the
empty set, and a read interrupted after `k` csv rows yields exactly the
first-column entries of those rows (header skipped) — always a subset of
the full read — so the run proceeds instead of failing. -/
theorem resume_read_never_fails (rows : List Row) (k : Nat) :
    getExistingFiles none none = []
    ∧ getExistingFiles none (some k) = []
    ∧ getExistingFiles (some rows) (some k) = firstColumns ((rows.take k).drop 1)
    ∧ ∀ s ∈ getExistingFiles (some rows) (some k),
        s ∈ getExistingFiles (some rows) none := by
  refine ⟨rfl, rfl, rfl, ?_⟩
  intro s hs
  show s ∈ firstColumns (rows.drop 1)
  have hsub : List.Sublist ((rows.take k).drop 1) (rows.drop 1) := by
    rw [List.drop_take]
    exact List.take_sublist _ _
  have hcols : List.Sublist (firstColumns ((rows.take k).drop 1))
      (firstColumns (rows.drop 1)) :=
    (hsub.filter _).map _
  exact hcols.subset hs

/-- Witness for C10: a read of the two-entry ledger interrupted after two
csv rows yields just "A.jpg", which the uninterrupted read contains. -/
theorem resume_read_never_fails_witness :
    getExistingFiles (some [["filename", "caption"], ["A.jpg", "ca"], ["B.jpg", "cb"]]) (some 2)
      = ["A.jpg"]
    ∧ "A.jpg" ∈ getExistingFiles
        (some [["filename", "caption"], ["A.jpg", "ca"], ["B.jpg", "cb"]]) none :=
  ⟨(resume_read_never_fails [["filename", "caption"], ["A.jpg", "ca"], ["B.jpg", "cb"]] 2).2.2.1.trans rfl,
   (resume_read_never_fails [["filename", "caption"], ["A.jpg", "ca"], ["B.jpg", "cb"]] 2).2.2.2
     "A.jpg" (by decide)⟩

/-- In buffered mode the loop only grows the in-memory buffer, one row
per file in order, and never touches the ledger file. -/
theorem foldl_buffered (fmt : FormatType) (env : PyPath → FileOutcome)
    (files : List PyPath) : ∀ st : RunState,
    files.foldl (processFile false fmt env) st
      = { st with results := st.results ++ files.map (fun f => resultRow fmt f (env f)) } := by
  induction files with
  | nil => intro st; simp
  | cons f fs ih =>
      intro st
      rw [List.foldl_cons, ih]
      simp [processFile]

/-- In continuous-save mode the loop appends one row per file, in
order, to the ledger file and leaves the buffer untouched. -/
theorem foldl_continuous (fmt : FormatType) (env : PyPath → FileOutcome)
    (files : List PyPath) : ∀ l res : List Row,
    files.foldl (processFile true fmt env) { file := some l, results := res }
      = { file := some (l ++ files.map (fun f => resultRow fmt f (env f))), results := res } := by
  induction files with
  | nil => intro l res; simp
  | cons f fs ih =>
      intro l res
      rw [List.foldl_cons]
      have hstep : processFile true fmt env { file := some l, results := res } f
          = { file := some (l ++ [resultRow fmt f (env f)]), results := res } := by
        simp [processFile, saveSingleResult]
      rw [hstep, ih]
      simp

/-- The resume filter of an empty discovery list is empty. -/
theorem filterExisting_nil (skipExisting : Bool) (existing : List String) :
    filterExisting skipExisting existing [] = [] := by
  unfold filterExisting
  split <;> rfl

/-- C4: in incremental mode the startup step writes the header only
when the ledger is absent, each file's row is appended to the ledger
immediately when its iteration ends, and after any prefix of `k` files
a fresh ledger holds exactly the header followed by the rows of those
`k` files — so interruption leaves that prefix durable. -/
theorem incremental_mode_prefix_durable (fmt : FormatType) (env : PyPath → FileOutcome)
    (files : List PyPath) (prior : List Row) (k : Nat) :
    ensureCsvHeaders fmt none = some [headerRow fmt]
    ∧ ensureCsvHeaders fmt (some prior) = some prior
    ∧ (∀ (st : RunState) (f : PyPath),
        processFile true fmt env st f
          = { st with file := some (st.file.getD [] ++ [resultRow fmt f (env f)]) })
    ∧ ((files.take k).foldl (processFile true fmt env)
          { file := ensureCsvHeaders fmt none, results := [] }).file
        = some (headerRow fmt :: (files.take k).map (fun f => resultRow fmt f (env f))) := by
  refine ⟨rfl, rfl, ?_, ?_⟩
  · intro st f
    simp [processFile, saveSingleResult]
  · show ((files.take k).foldl (processFile true fmt env)
        { file := some [headerRow fmt], results := [] }).file = _
    rw [foldl_continuous]
    simp

/-- C5: a file whose processing raises an exception is recorded as an
"ERROR" row (with size "0" and dimensions "unknown" in detailed format),
and the batch continues: in either persistence mode every file of the
batch, before and after the failing one, still contributes exactly its
own row in order. -/
theorem error_row_recorded_batch_continues (fmt : FormatType) (env : PyPath → FileOutcome)
    (files : List PyPath) (f : PyPath) (e : String) (prior : List Row)
    (hf : f ∈ files) (he : (env f).result = Except.error e) :
    resultRow FormatType.detailed f (env f)
        = [f.name, "ERROR", "0", "unknown", pyLower f.suffix, (env f).now]
    ∧ resultRow FormatType.basic f (env f) = [f.name, "ERROR"]
    ∧ (files.foldl (processFile false fmt env) { file := none, results := [] }).results
        = files.map (fun g => resultRow fmt g (env g))
    ∧ (files.foldl (processFile true fmt env) { file := some prior, results := [] }).file
        = some (prior ++ files.map (fun g => resultRow fmt g (env g))) := by
  refine ⟨?_, ?_, ?_, ?_⟩
  · simp [resultRow, he]
  · simp [resultRow, he]
  · rw [foldl_buffered]
    simp
  · rw [foldl_continuous]

/-- Witness for C5: with `A.jpg` raising and `B.jpg` succeeding, A's
row is `["A.jpg", "ERROR"]` and the buffered run still records one row
per file, B's included. -/
theorem error_row_recorded_batch_continues_witness :
    resultRow FormatType.basic ⟨"A.jpg", ".jpg", "d/A.jpg"⟩
        (envWitness ⟨"A.jpg", ".jpg", "d/A.jpg"⟩)
      = ["A.jpg", "ERROR"]
    ∧ ([⟨"A.jpg", ".jpg", "d/A.jpg"⟩, ⟨"B.jpg", ".jpg", "d/B.jpg"⟩].foldl
          (processFile false FormatType.basic envWitness)
          { file := none, results := [] }).results
      = [⟨"A.jpg", ".jpg", "d/A.jpg"⟩, ⟨"B.jpg", ".jpg", "d/B.jpg"⟩].map
          (fun g => resultRow FormatType.basic g (envWitness g)) :=
  ⟨(error_row_recorded_batch_continues FormatType.basic envWitness
      [⟨"A.jpg", ".jpg", "d/A.jpg"⟩, ⟨"B.jpg", ".jpg", "d/B.jpg"⟩]
      ⟨"A.jpg", ".jpg", "d/A.jpg"⟩ "broken image" [] (by decide) rfl).2.1,
   (error_row_recorded_batch_continues FormatType.basic envWitness
      [⟨"A.jpg", ".jpg", "d/A.jpg"⟩, ⟨"B.jpg", ".jpg", "d/B.jpg"⟩]
      ⟨"A.jpg", ".jpg", "d/A.jpg"⟩ "broken image" [] (by decide) rfl).2.2.1⟩

/-- C3: in buffered mode the loop never writes the ledger, and the
whole run performs one final write: appending the accumulated rows to
the pre-run ledger when resuming (skip-existing on and a nonempty
resume set), and otherwise overwriting the ledger with the format's
header row followed by the accumulated rows. -/
theorem buffered_mode_single_final_write (skipExisting : Bool) (fmt : FormatType)
    (env : PyPath → FileOutcome) (errIdx : Option Nat) (file0 : Option (List Row))
    (input : InputPath)
    (hne : filterExisting skipExisting
        (if skipExisting then getExistingFiles file0 errIdx else [])
        (getFiles input) ≠ []) :
    (∀ (st : RunState) (fs : List PyPath),
        (fs.foldl (processFile false fmt env) st).file = st.file)
    ∧ process skipExisting false fmt env errIdx file0 input
        = (if skipExisting
              && !(if skipExisting then getExistingFiles file0 errIdx else []).isEmpty then
            some (file0.getD []
              ++ (filterExisting skipExisting
                    (if skipExisting then getExistingFiles file0 errIdx else [])
                    (getFiles input)).map (fun f => resultRow fmt f (env f)))
          else
            some (headerRow fmt
              :: (filterExisting skipExisting
                    (if skipExisting then getExistingFiles file0 errIdx else [])
                    (getFiles input)).map (fun f => resultRow fmt f (env f)))) := by
  constructor
  · intro st fs
    rw [foldl_buffered]
  · have hfnil : getFiles input ≠ [] := by
      intro h
      apply hne
      rw [h]
      exact filterExisting_nil _ _
    simp only [process]
    simp only [show (if (false : Bool) = true then ensureCsvHeaders fmt file0 else file0)
        = file0 from rfl]
    rw [if_neg (by simpa [List.isEmpty_iff] using hfnil)]
    rw [if_neg (by simpa [List.isEmpty_iff] using hne)]
    rw [if_pos (show ((!false) = true) from rfl)]
    rw [foldl_buffered]
    simp only [List.nil_append]
    cases hb : (skipExisting
        && !(if skipExisting then getExistingFiles file0 errIdx else []).isEmpty) with
    | true =>
        rw [if_pos rfl, if_pos rfl]
        have hrows : ((filterExisting skipExisting
            (if skipExisting then getExistingFiles file0 errIdx else [])
            (getFiles input)).map (fun f => resultRow fmt f (env f))) ≠ [] := by
          intro h
          exact hne (List.map_eq_nil_iff.mp h)
        unfold appendCsv
        rw [if_neg (by simpa [List.isEmpty_iff] using hrows)]
    | false =>
        rfl

/-- Witness for C3 at a resuming run: with "A.jpg" already in the
ledger and input file `d/C.jpg`, the buffered run appends exactly C's
row to the existing ledger. -/
theorem buffered_mode_single_final_write_witness :
    process true false FormatType.basic
        (fun g => ⟨Except.ok "a cat", ⟨"1", "2x2", ".jpg", "t"⟩, "t"⟩) none
        (some [["filename", "caption"], ["A.jpg", "ca"]])
        (InputPath.file ⟨"C.jpg", ".jpg", "d/C.jpg"⟩)
      = if true && !(if true
            then getExistingFiles (some [["filename", "caption"], ["A.jpg", "ca"]]) none
            else []).isEmpty then
          some ((some [["filename", "caption"], ["A.jpg", "ca"]]).getD []
            ++ (filterExisting true
                  (if true
                    then getExistingFiles (some [["filename", "caption"], ["A.jpg", "ca"]]) none
                    else [])
                  (getFiles (InputPath.file ⟨"C.jpg", ".jpg", "d/C.jpg"⟩))).map
                (fun f => resultRow FormatType.basic f
                  ⟨Except.ok "a cat", ⟨"1", "2x2", ".jpg", "t"⟩, "t"⟩))
        else
          some (headerRow FormatType.basic
            :: (filterExisting true
                  (if true
                    then getExistingFiles (some [["filename", "caption"], ["A.jpg", "ca"]]) none
                    else [])
                  (getFiles (InputPath.file ⟨"C.jpg", ".jpg", "d/C.jpg"⟩))).map
                (fun f => resultRow FormatType.basic f
                  ⟨Except.ok "a cat", ⟨"1", "2x2", ".jpg", "t"⟩, "t"⟩)) :=
  (buffered_mode_single_final_write true FormatType.basic
      (fun g => ⟨Except.ok "a cat", ⟨"1", "2x2", ".jpg", "t"⟩, "t"⟩) none
      (some [["filename", "caption"], ["A.jpg", "ca"]])
      (InputPath.file ⟨"C.jpg", ".jpg", "d/C.jpg"⟩) (by decide)).2

/-- C6: for a directory input the discovered list is sorted and holds
exactly the recursively found plain files whose lowercased extension is
a recognized image or video extension; a single-file input yields that
file when supported and the empty list otherwise. -/
theorem discovery_sorted_supported (entries : List DirEntry) :
    List.Sorted pathLe (getFiles (InputPath.dir entries))
    ∧ (∀ p : PyPath, p ∈ getFiles (InputPath.dir entries)
        ↔ ∃ e ∈ entries, e.isFile = true ∧ isSupported e.path = true ∧ e.path = p)
    ∧ (∀ p : PyPath, isSupported p = true
        ↔ (pyLower p.suffix ∈ SUPPORTED_IMAGES ∨ pyLower p.suffix ∈ SUPPORTED_VIDEOS))
    ∧ (∀ p : PyPath, isSupported p = true → getFiles (InputPath.file p) = [p])
    ∧ (∀ p : PyPath, isSupported p = false → getFiles (InputPath.file p) = []) := by
  refine ⟨?_, ?_, ?_, ?_, ?_⟩
  · exact List.sorted_insertionSort pathLe _
  · intro p
    show p ∈ List.insertionSort pathLe
        ((entries.filter (fun e => e.isFile && isSupported e.path)).map (·.path)) ↔ _
    rw [(List.perm_insertionSort pathLe _).mem_iff]
    simp only [List.mem_map, List.mem_filter, Bool.and_eq_true]
    constructor
    · rintro ⟨e, ⟨he, hfile, hsupp⟩, rfl⟩
      exact ⟨e, he, hfile, hsupp, rfl⟩
    · rintro ⟨e, he, hfile, hsupp, rfl⟩
      exact ⟨e, ⟨he, hfile, hsupp⟩, rfl⟩
  · intro p
    simp [isSupported, List.contains]
  · intro p h
    simp [getFiles, h]
  · intro p h
    simp [getFiles, h]

/-- Witness for C6: a supported single file is returned, an
unsupported one is not, and an uppercase extension counts; a small
directory listing is sorted. -/
theorem discovery_sorted_supported_witness :
    getFiles (InputPath.file ⟨"A.jpg", ".jpg", "d/A.jpg"⟩) = [⟨"A.jpg", ".jpg", "d/A.jpg"⟩]
    ∧ getFiles (InputPath.file ⟨"a.txt", ".txt", "d/a.txt"⟩) = []
    ∧ (⟨"b.PNG", ".PNG", "x/b.PNG"⟩ : PyPath)
        ∈ getFiles (InputPath.dir
            [⟨⟨"b.PNG", ".PNG", "x/b.PNG"⟩, true⟩, ⟨⟨"a.txt", ".txt", "x/a.txt"⟩, true⟩])
    ∧ List.Sorted pathLe (getFiles (InputPath.dir
        [⟨⟨"b.PNG", ".PNG", "x/b.PNG"⟩, true⟩, ⟨⟨"a.txt", ".txt", "x/a.txt"⟩, true⟩])) :=
  ⟨(discovery_sorted_supported []).2.2.2.1 ⟨"A.jpg", ".jpg", "d/A.jpg"⟩ (by decide),
   (discovery_sorted_supported []).2.2.2.2 ⟨"a.txt", ".txt", "d/a.txt"⟩ (by decide),
   ((discovery_sorted_supported
        [⟨⟨"b.PNG", ".PNG", "x/b.PNG"⟩, true⟩, ⟨⟨"a.txt", ".txt", "x/a.txt"⟩, true⟩]).2.1
      ⟨"b.PNG", ".PNG", "x/b.PNG"⟩).mpr
     ⟨⟨⟨"b.PNG", ".PNG", "x/b.PNG"⟩, true⟩, by decide, rfl, by decide, rfl⟩,
   (discovery_sorted_supported
      [⟨⟨"b.PNG", ".PNG", "x/b.PNG"⟩, true⟩, ⟨⟨"a.txt", ".txt", "x/a.txt"⟩, true⟩]).1⟩

end BlipTagger
